import Mathlib

/-!
Verification of the Kado video-bug-reporter repository against its specification.

The repository sources contain the web client (`web/src/app`, a React component
handling upload validation, the analyze request, progress display and result
rendering) together with the build glue; the analysis pipeline itself is present
only through its specification and task list, so the pipeline-level definitions
below are modelled from the spec and marked as such.

JS numbers are modelled as exact rationals, JS strings as Lean strings over
their character lists, and the stateful React component as explicit state
passing over a `ClientState` record.
-/

/-- Rounding toward zero, as performed by the JS `%` operator on its operands. -/
def jsTrunc (q : ℚ) : ℤ := if 0 ≤ q then ⌊q⌋ else ⌈q⌉

/-- Semantics of the JS `%` operator (fmod): `a % b = a - b * trunc (a / b)`. -/
def jsFmod (a b : ℚ) : ℚ := a - b * (jsTrunc (a / b) : ℤ)

/-- Semantics of JS `Math.round`: floor of the argument plus one half. -/
def jsRound (q : ℚ) : ℤ := ⌊q + 1 / 2⌋

/-- Semantics of JS `String.prototype.padStart` with a single pad character. -/
def jsPadStart (n : Nat) (c : Char) (s : String) : String :=
  String.mk (List.replicate (n - s.length) c) ++ s

/-- Semantics of JS `String.prototype.split` for the one-character separator
used by the client, computed over the character list. -/
def splitOnDotAux : List Char → List Char → List (List Char)
  | [], cur => [cur.reverse]
  | c :: rest, cur =>
    if c = '.' then cur.reverse :: splitOnDotAux rest []
    else splitOnDotAux rest (c :: cur)

/-- The client expression `name.split(".")`. -/
def jsSplitDot (s : String) : List String := (splitOnDotAux s.data []).map String.mk

/-- Semantics of JS `String.prototype.toLowerCase` on the ASCII range. -/
def jsToLowerCase (s : String) : String := String.mk (s.data.map Char.toLower)

/-- Schema of one failure event, shared by the client interface `FailureEvent`
and the spec (section 3). -/
structure FailureEvent where
  timestamp_seconds : ℚ
  title : String
  expected : String
  actual : String
  evidence : String
  confidence : ℚ
deriving DecidableEq

/-- Success payload of the analyze endpoint, client interface `AnalyzeResponse`. -/
structure AnalyzeResponse where
  failures : List FailureEvent
deriving DecidableEq

/-- The client state machine labels, client type `AppState`. -/
inductive AppState
  | idle
  | selected
  | analyzing
  | done
  | error
deriving DecidableEq

/-- The relevant data of a selected browser `File`: name and size in bytes. -/
structure JsFile where
  name : String
  size : Nat
deriving DecidableEq

/-- The component state of `Home`: the pieces of `useState` the claims touch. -/
structure ClientState where
  state : AppState
  file : Option JsFile
  result : Option AnalyzeResponse
  error : String
  activeStep : Nat
deriving DecidableEq

/-- Client constant `ACCEPTED_FORMATS`. -/
def ACCEPTED_FORMATS : String := ".mp4,.mov,.webm"

/-- Client constant `MAX_SIZE_MB`. -/
def MAX_SIZE_MB : Nat := 500

/-- Client constant `PIPELINE_STEPS`. -/
def PIPELINE_STEPS : List String :=
  [ "Extracting audio from video"
  , "Transcribing narration"
  , "Scanning for failure signals"
  , "Analyzing with AI"
  , "Deduplicating results" ]

/-- Client helper `formatTimestamp`: minutes, a colon, zero-padded seconds. -/
def formatTimestamp (seconds : ℚ) : String :=
  let m : ℤ := ⌊seconds / 60⌋
  let s : ℤ := ⌊jsFmod seconds 60⌋
  toString m ++ ":" ++ jsPadStart 2 '0' (toString s)

/-- Semantics of JS `toFixed(0)` on nonnegative values: nearest integer, ties up. -/
def jsToFixed0 (q : ℚ) : String := toString ⌊q + 1 / 2⌋

/-- Semantics of JS `toFixed(1)` on nonnegative values. -/
def jsToFixed1 (q : ℚ) : String :=
  let n : ℤ := ⌊q * 10 + 1 / 2⌋
  toString (n / 10) ++ "." ++ toString (n % 10)

/-- Client helper `formatFileSize`. -/
def formatFileSize (bytes : Nat) : String :=
  if bytes < 1024 * 1024 then jsToFixed0 ((bytes : ℚ) / 1024) ++ " KB"
  else jsToFixed1 ((bytes : ℚ) / (1024 * 1024)) ++ " MB"

/-- The client expression `f.name.split(".").pop()?.toLowerCase()`. -/
def fileExt (name : String) : Option String :=
  (jsSplitDot name).getLast?.map jsToLowerCase

/-- Client callback `handleFile`: reject unknown extensions, reject oversized
files, otherwise select the file and clear error and result. -/
def handleFile (f : JsFile) (st : ClientState) : ClientState :=
  if !(["mp4", "mov", "webm"].contains ((fileExt f.name).getD "")) then
    { st with
      error := "Unsupported format. Please upload MP4, MOV, or WebM."
      state := AppState.error }
  else if f.size > MAX_SIZE_MB * 1024 * 1024 then
    { st with
      error := "File too large (" ++ formatFileSize f.size ++ "). Max is "
                 ++ toString MAX_SIZE_MB ++ " MB."
      state := AppState.error }
  else
    { st with
      file := some f
      state := AppState.selected
      error := ""
      result := none }

/-- Abstraction of the HTTP response observed by `analyze`: the status data,
the `detail` field of the error body when that body parses as JSON (`none` in
the outer option when it does not), the success body when it parses as an
`AnalyzeResponse`, and the message of the exception thrown otherwise. -/
structure HttpResponse where
  ok : Bool
  status : Nat
  statusText : String
  errDetail : Option (Option String)
  okJson : Option AnalyzeResponse
  parseErrMsg : String

/-- Semantics of the JS expression `x || y` on an optional string: `y` exactly
when `x` is absent or empty (falsy). -/
def jsOrElse (x : Option String) (y : String) : String :=
  match x with
  | some s => if s = "" then y else s
  | none => y

/-- Message thrown at the not-ok branch of `analyze`: the parsed error body
falls back to an object holding the status text, then its truthy `detail`
falls back to the literal HTTP status line. -/
def analyzeErrorMessage (res : HttpResponse) : String :=
  let detail : Option String :=
    match res.errDetail with
    | none => some res.statusText
    | some d => d
  jsOrElse detail ("HTTP " ++ toString res.status)

/-- State updates performed at the top of `analyze`, before the fetch. -/
def startAnalyzing (st : ClientState) : ClientState :=
  { st with state := AppState.analyzing, activeStep := 0, result := none, error := "" }

/-- Response handling of `analyze`: a not-ok response throws the structured
message and the catch records the error state; an ok response parses the body
and enters the done state, or the error state when parsing throws. -/
def processResponse (st : ClientState) (res : HttpResponse) : ClientState :=
  if res.ok = false then
    { st with error := analyzeErrorMessage res, state := AppState.error }
  else
    match res.okJson with
    | some data => { st with result := some data, state := AppState.done }
    | none => { st with error := res.parseErrMsg, state := AppState.error }

/-- The whole `analyze` action, given the HTTP response the fetch produced;
with no selected file it returns immediately. -/
def analyze (st : ClientState) (res : HttpResponse) : ClientState :=
  match st.file with
  | none => st
  | some _ => processResponse (startAnalyzing st) res

/-- The FormData built by `analyze`: a single field named `file` holding the
selected file. -/
def analyzeFormData (f : JsFile) : List (String × JsFile) := [("file", f)]

/-- Text of the results-count badge rendered in the done state. -/
def resultsCountText (r : AnalyzeResponse) : String :=
  toString r.failures.length ++ " failure"
    ++ (if r.failures.length ≠ 1 then "s" else "") ++ " detected"

/-- Whether the no-failures notice is rendered: done state, a result present,
and an empty failures array. -/
def showsNoFailuresNotice (st : ClientState) : Bool :=
  (st.state == AppState.done)
    && (match st.result with
        | some r => r.failures.isEmpty
        | none => false)

/-- The visible content of one failure card of the results list. -/
structure FailureCard where
  timestampText : String
  confidenceText : String
  title : String
  expected : String
  actual : String
  evidence : String
deriving DecidableEq

/-- Rendering of one failure event as a card, following the JSX of the results
list: formatted timestamp, rounded percentage, and the four text fields. -/
def renderFailureCard (f : FailureEvent) : FailureCard :=
  { timestampText := formatTimestamp f.timestamp_seconds
    confidenceText := toString (jsRound (f.confidence * 100)) ++ "% confidence"
    title := f.title
    expected := f.expected
    actual := f.actual
    evidence := f.evidence }

/-- The list of cards rendered for a success response. -/
def renderedCards (r : AnalyzeResponse) : List FailureCard :=
  r.failures.map renderFailureCard

/-- One tick of the progress interval started by `analyze`. -/
def stepTick (prev : Nat) : Nat := min (prev + 1) (PIPELINE_STEPS.length - 1)

/-- Value of `activeStep` after `n` ticks, starting from the 0 set by `analyze`. -/
def activeStepAfter : Nat → Nat
  | 0 => 0
  | n + 1 => stepTick (activeStepAfter n)

/-- Modelled from the spec: a time-coded transcript segment (section 3); the
pipeline implementation is absent from the repository sources, which carry it
only as a task list. -/
structure TranscriptSegment where
  start : ℚ
  stop : ℚ
  text : String
deriving DecidableEq

/-- Modelled from the spec: a bounded context window of neighboring transcript
segments around one candidate (section 3). -/
structure ContextWindow where
  segments : List TranscriptSegment
  center_index : Nat
deriving DecidableEq

/-- Modelled from the spec: one extraction attempt (section 4.5). The backend
receives the window and, on a repair call, the description of the previous
failure; a `none` from the backend is a transport-level failure, and the
validator returns `none` on output that fails schema validation — both are
treated alike for retry purposes. -/
def attemptExtract (backend : ContextWindow → Option String → Option String)
    (validate : String → Option (List FailureEvent))
    (w : ContextWindow) (feedback : Option String) :
    Except String (List FailureEvent) :=
  match backend w feedback with
  | none => Except.error "transport failure"
  | some raw =>
    match validate raw with
    | some evs => Except.ok evs
    | none => Except.error ("invalid extraction output: " ++ raw)

/-- Modelled from the spec: the strict two-attempt policy of the Extraction
Engine (section 4.5) — one initial call, at most one repair call carrying the
validation error, then the window is skipped silently. Returns the events the
window contributes together with the number of backend calls made. -/
def extractWindow (backend : ContextWindow → Option String → Option String)
    (validate : String → Option (List FailureEvent))
    (w : ContextWindow) : List FailureEvent × Nat :=
  match attemptExtract backend validate w none with
  | Except.ok evs => (evs, 1)
  | Except.error e =>
    match attemptExtract backend validate w (some e) with
    | Except.ok evs => (evs, 2)
    | Except.error _ => ([], 2)

/-- Modelled from the spec: the orchestrator runs extraction per window in
order, concatenating events and counting backend calls (section 4.7). -/
def extractAll (backend : ContextWindow → Option String → Option String)
    (validate : String → Option (List FailureEvent))
    (ws : List ContextWindow) : List FailureEvent × Nat :=
  ws.foldl
    (fun acc w =>
      let r := extractWindow backend validate w
      (acc.1 ++ r.1, acc.2 + r.2))
    ([], 0)

/-- Modelled from the spec: the extraction stage as seen by the caller of the
pipeline — always a success value, since per-window failures are swallowed at
the window boundary (section 7). -/
def pipelineExtractResult (backend : ContextWindow → Option String → Option String)
    (validate : String → Option (List FailureEvent))
    (ws : List ContextWindow) : Except String (List FailureEvent) :=
  Except.ok (extractAll backend validate ws).1

/-- Modelled from the spec: the duplicate predicate of the Merger (section
4.6) — timestamps within 30 seconds and semantically similar titles; the
concrete similarity test is a stated design freedom and is passed in. -/
def isDuplicate (similar : String → String → Bool) (a b : FailureEvent) : Bool :=
  decide (|a.timestamp_seconds - b.timestamp_seconds| ≤ 30) && similar a.title b.title

/-- Modelled from the spec: one greedy merge step (section 4.6) — the new
candidate is compared against the already-accepted list; on a duplicate the
higher-confidence event is kept, a confidence tie keeping the earlier-produced
(already accepted) one. -/
def dedupInsert (similar : String → String → Bool)
    (acc : List FailureEvent) (c : FailureEvent) : List FailureEvent :=
  match acc.findIdx? (fun a => isDuplicate similar a c) with
  | none => acc ++ [c]
  | some i => if c.confidence > (acc.getD i c).confidence then acc.set i c else acc

/-- Modelled from the spec: the greedy merge folds the candidates in their
processing order against the accepted list (section 4.6). -/
def dedup (similar : String → String → Bool)
    (cands : List FailureEvent) : List FailureEvent :=
  cands.foldl (dedupInsert similar) []

/-- Modelled from the spec: stable insertion for the final ordering — a new
event is placed before the first strictly-later event, so equal timestamps
keep their detection order (section 3). -/
def insertByTs (c : FailureEvent) : List FailureEvent → List FailureEvent
  | [] => [c]
  | a :: rest =>
    if c.timestamp_seconds < a.timestamp_seconds then c :: a :: rest
    else a :: insertByTs c rest

/-- Modelled from the spec: the final ascending stable sort of the merged
events by `timestamp_seconds` (sections 3 and 4.7). -/
def sortFailures (l : List FailureEvent) : List FailureEvent :=
  l.foldl (fun acc c => insertByTs c acc) []

/-- The unsorted merged output of the final-ordering example of section 8. -/
def exampleMerged : List FailureEvent :=
  [ { timestamp_seconds := 42.3, title := "Export crashes", expected := "e1"
    , actual := "a1", evidence := "v1", confidence := 0.9 }
  , { timestamp_seconds := 5.1, title := "Submit fails", expected := "e2"
    , actual := "a2", evidence := "v2", confidence := 0.8 }
  , { timestamp_seconds := 18.0, title := "Page stuck", expected := "e3"
    , actual := "a3", evidence := "v3", confidence := 0.7 } ]

/-- Euclidean floor of a rational divided by 60 equals integer division of its
floor by 60. -/
lemma floor_div_sixty (q : ℚ) : ⌊q / 60⌋ = ⌊q⌋ / 60 := by
  have h60 : (0 : ℚ) < 60 := by norm_num
  have h1 : (60 : ℤ) * (⌊q⌋ / 60) ≤ ⌊q⌋ := by omega
  have h2 : ⌊q⌋ + 1 ≤ 60 * (⌊q⌋ / 60) + 60 := by omega
  have hfl : ((⌊q⌋ : ℤ) : ℚ) ≤ q := Int.floor_le q
  have hlt : q < ((⌊q⌋ : ℤ) : ℚ) + 1 := Int.lt_floor_add_one q
  have h1q : ((60 * (⌊q⌋ / 60) : ℤ) : ℚ) ≤ ((⌊q⌋ : ℤ) : ℚ) := by exact_mod_cast h1
  have h2q : ((⌊q⌋ + 1 : ℤ) : ℚ) ≤ ((60 * (⌊q⌋ / 60) + 60 : ℤ) : ℚ) := by
    exact_mod_cast h2
  rw [Int.floor_eq_iff]
  constructor
  · rw [le_div_iff₀ h60]
    push_cast at h1q ⊢
    linarith
  · rw [div_lt_iff₀ h60]
    push_cast at h2q ⊢
    linarith

/-- For nonnegative seconds, the floor of the JS remainder by 60 is the floor
reduced modulo 60. -/
lemma floor_jsFmod_sixty (q : ℚ) (h : 0 ≤ q) : ⌊jsFmod q 60⌋ = ⌊q⌋ % 60 := by
  have hq : 0 ≤ q / 60 := by positivity
  have htr : jsTrunc (q / 60) = ⌊q⌋ / 60 := by
    rw [jsTrunc, if_pos hq, floor_div_sixty]
  have hbody : jsFmod q 60 = q - ((60 * (⌊q⌋ / 60) : ℤ) : ℚ) := by
    rw [jsFmod, htr]
    push_cast
    ring
  rw [hbody, Int.floor_sub_int]
  omega

/-- Length of padStart to width two: the maximum of two and the input length. -/
lemma jsPadStart_two_length (c : Char) (s : String) :
    (jsPadStart 2 c s).length = max 2 s.length := by
  simp only [jsPadStart, String.length_append, String.length_mk,
    List.length_replicate]
  omega

/-- Decimal representations of integers below 60 need at most two characters. -/
lemma toString_int_lt_sixty_length (i : ℤ) (h0 : 0 ≤ i) (h : i < 60) :
    (toString i).length ≤ 2 := by
  lift i to ℕ using h0 with k
  have hk : k < 60 := by exact_mod_cast h
  have hrepr : toString ((k : ℤ)) = Nat.repr k := rfl
  rw [hrepr]
  exact (by decide : ∀ n, n < 60 → (Nat.repr n).length ≤ 2) k hk

/-- C10: for every nonnegative number of seconds `s`, `formatTimestamp s` is
the string made of the minutes `⌊s / 60⌋`, a colon, and the seconds
`⌊s⌋ % 60` zero-padded on the left to exactly two characters; the seconds part
is nonnegative and below 60. -/
theorem formatTimestamp_mss (q : ℚ) (h : 0 ≤ q) :
    formatTimestamp q =
      toString ⌊q / 60⌋ ++ ":" ++ jsPadStart 2 '0' (toString (⌊q⌋ % 60)) ∧
    (jsPadStart 2 '0' (toString (⌊q⌋ % 60))).length = 2 ∧
    0 ≤ ⌊q⌋ % 60 ∧ ⌊q⌋ % 60 < 60 := by
  have hnn : 0 ≤ ⌊q⌋ % 60 := Int.emod_nonneg ⌊q⌋ (by norm_num)
  have hlt : ⌊q⌋ % 60 < 60 := Int.emod_lt_of_pos ⌊q⌋ (by norm_num)
  refine ⟨?_, ?_, hnn, hlt⟩
  · simp only [formatTimestamp]
    rw [floor_jsFmod_sixty q h]
  · rw [jsPadStart_two_length]
    have := toString_int_lt_sixty_length (⌊q⌋ % 60) hnn hlt
    omega

/-- Witness for C10 at s = 65 and s = 12.5, checking the concrete renderings. -/
theorem formatTimestamp_mss_witness :
    (formatTimestamp 65 =
        toString ⌊(65 : ℚ) / 60⌋ ++ ":"
          ++ jsPadStart 2 '0' (toString (⌊(65 : ℚ)⌋ % 60)) ∧
      (jsPadStart 2 '0' (toString (⌊(65 : ℚ)⌋ % 60))).length = 2 ∧
      0 ≤ ⌊(65 : ℚ)⌋ % 60 ∧ ⌊(65 : ℚ)⌋ % 60 < 60) ∧
    formatTimestamp 65 = "1:05" ∧ formatTimestamp 12.5 = "0:12" := by
  have h1 : ⌊(65 : ℚ) / 60⌋ = 1 := by
    rw [Int.floor_eq_iff]; norm_num
  have h2 : jsFmod 65 60 = 5 := by
    rw [jsFmod, jsTrunc, if_pos (by positivity : (0 : ℚ) ≤ 65 / 60), h1]
    norm_num
  have h3 : ⌊(5 : ℚ)⌋ = 5 := by
    rw [Int.floor_eq_iff]; norm_num
  have h4 : ⌊(12.5 : ℚ) / 60⌋ = 0 := by
    rw [Int.floor_eq_iff]; norm_num
  have h5 : jsFmod 12.5 60 = 12.5 := by
    rw [jsFmod, jsTrunc, if_pos (by positivity : (0 : ℚ) ≤ 12.5 / 60), h4]
    norm_num
  have h6 : ⌊(12.5 : ℚ)⌋ = 12 := by
    rw [Int.floor_eq_iff]; norm_num
  refine ⟨formatTimestamp_mss 65 (by norm_num), ?_, ?_⟩
  · simp only [formatTimestamp, h1, h2, h3]
    decide
  · simp only [formatTimestamp, h4, h5, h6]
    decide

/-- C9: the progress step index starts at 0, each tick advances it to
`min (prev + 1) (PIPELINE_STEPS.length - 1)`, and after any number of ticks it
stays within `[0, PIPELINE_STEPS.length - 1]`, a range equal to `[0, 4]`. -/
theorem activeStep_bounded :
    activeStepAfter 0 = 0 ∧
    (∀ n, activeStepAfter (n + 1) =
      min (activeStepAfter n + 1) (PIPELINE_STEPS.length - 1)) ∧
    (∀ n, activeStepAfter n ≤ PIPELINE_STEPS.length - 1) ∧
    PIPELINE_STEPS.length - 1 = 4 := by
  refine ⟨rfl, fun n => rfl, fun n => ?_, rfl⟩
  cases n with
  | zero => exact Nat.zero_le _
  | succ n => exact Nat.min_le_right _ _

/-- C1: only filenames whose extension (the last dot-separated component,
compared case-insensitively) is mp4, mov or webm are accepted — any other
extension makes `handleFile` enter the error state with the unsupported-format
message, leaving the file field untouched so the file is never submitted; an
accepted file of admissible size becomes selected, and the form submitted by
`analyze` is a single multipart field named `file` holding exactly that file. -/
theorem handleFile_extension_policy (f : JsFile) (st : ClientState) :
    (["mp4", "mov", "webm"].contains ((fileExt f.name).getD "") = false →
      (handleFile f st).state = AppState.error ∧
      (handleFile f st).error =
        "Unsupported format. Please upload MP4, MOV, or WebM." ∧
      (handleFile f st).file = st.file) ∧
    (["mp4", "mov", "webm"].contains ((fileExt f.name).getD "") = true →
      f.size ≤ MAX_SIZE_MB * 1024 * 1024 →
      (handleFile f st).state = AppState.selected ∧
      (handleFile f st).file = some f) ∧
    (∀ g : JsFile, analyzeFormData g = [("file", g)] ∧
      (analyzeFormData g).length = 1) := by
  refine ⟨fun h => ?_, fun h hsz => ?_, fun g => ⟨rfl, rfl⟩⟩
  · unfold handleFile
    rw [h]
    simp
  · have hgt : ¬ f.size > MAX_SIZE_MB * 1024 * 1024 := Nat.not_lt.mpr hsz
    unfold handleFile
    rw [h]
    simp only [Bool.not_true, Bool.false_eq_true, if_false, if_neg hgt]
    simp

/-- Witness for C1: a rejected `.avi` file and an accepted `.MP4` file. -/
theorem handleFile_extension_policy_witness :
    (handleFile ⟨"demo.avi", 1000⟩
        ⟨AppState.idle, none, none, "", 0⟩).state = AppState.error ∧
    (handleFile ⟨"demo.avi", 1000⟩
        ⟨AppState.idle, none, none, "", 0⟩).file = none ∧
    (handleFile ⟨"demo.MP4", 1000⟩
        ⟨AppState.idle, none, none, "", 0⟩).state = AppState.selected ∧
    analyzeFormData ⟨"demo.MP4", 1000⟩ = [("file", ⟨"demo.MP4", 1000⟩)] := by
  have hbad :=
    (handleFile_extension_policy ⟨"demo.avi", 1000⟩
      ⟨AppState.idle, none, none, "", 0⟩).1 (by decide)
  have hgood :=
    (handleFile_extension_policy ⟨"demo.MP4", 1000⟩
      ⟨AppState.idle, none, none, "", 0⟩).2.1 (by decide) (by decide)
  exact ⟨hbad.1, hbad.2.2, hgood.1, rfl⟩

/-- Helper: the oversized-file message starts with the words File too large. -/
lemma fileTooLarge_isPrefix (s : String) :
    List.IsPrefix "File too large".data ("File too large (" ++ s).data := by
  have h1 : List.IsPrefix "File too large".data "File too large (".data := by
    decide
  have h2 : List.IsPrefix "File too large (".data
      ("File too large (" ++ s).data :=
    ⟨s.data, (String.data_append _ _).symm⟩
  exact h1.trans h2

/-- C8: the client enforces a 500 MiB limit absent from the spec — every file
strictly larger than `500 * 1024 * 1024` bytes drives `handleFile` into the
error state with the file field untouched (so it is never submitted), the
message starting with File too large whenever the extension was acceptable;
the constant of the code is `MAX_SIZE_MB = 500`. -/
theorem handleFile_size_limit (f : JsFile) (st : ClientState)
    (hsize : f.size > 500 * 1024 * 1024) :
    (handleFile f st).state = AppState.error ∧
    (handleFile f st).file = st.file ∧
    (["mp4", "mov", "webm"].contains ((fileExt f.name).getD "") = true →
      List.IsPrefix "File too large".data (handleFile f st).error.data) ∧
    MAX_SIZE_MB = 500 := by
  have hgt : f.size > MAX_SIZE_MB * 1024 * 1024 := hsize
  cases hext : ["mp4", "mov", "webm"].contains ((fileExt f.name).getD "") with
  | true =>
    have hres : handleFile f st =
        { st with
          error := "File too large (" ++ formatFileSize f.size ++ "). Max is "
                     ++ toString MAX_SIZE_MB ++ " MB."
          state := AppState.error } := by
      unfold handleFile
      rw [hext]
      simp only [Bool.not_true, Bool.false_eq_true, if_false, if_pos hgt]
    refine ⟨by rw [hres], by rw [hres], fun _ => ?_, rfl⟩
    rw [hres]
    show List.IsPrefix "File too large".data
      ("File too large (" ++ formatFileSize f.size ++ "). Max is "
        ++ toString MAX_SIZE_MB ++ " MB.").data
    rw [String.append_assoc, String.append_assoc]
    exact fileTooLarge_isPrefix _
  | false =>
    have hres : handleFile f st =
        { st with
          error := "Unsupported format. Please upload MP4, MOV, or WebM."
          state := AppState.error } := by
      unfold handleFile
      rw [hext]
      rfl
    exact ⟨by rw [hres], by rw [hres],
      fun hc => absurd hc (by simp), rfl⟩

/-- Witness for C8: a 500 MiB + 1 byte mp4 file is rejected, not selected. -/
theorem handleFile_size_limit_witness :
    (handleFile ⟨"big.mp4", 524288001⟩
        ⟨AppState.idle, none, none, "", 0⟩).state = AppState.error ∧
    (handleFile ⟨"big.mp4", 524288001⟩
        ⟨AppState.idle, none, none, "", 0⟩).file = none ∧
    List.IsPrefix "File too large".data
      (handleFile ⟨"big.mp4", 524288001⟩
        ⟨AppState.idle, none, none, "", 0⟩).error.data := by
  have h :=
    handleFile_size_limit ⟨"big.mp4", 524288001⟩
      ⟨AppState.idle, none, none, "", 0⟩ (by decide)
  exact ⟨h.1, h.2.1, h.2.2.1 (by decide)⟩

/-- C2: every non-ok response drives the client into the error state — never
the done state — with the result cleared, the message being the `detail` field
of the JSON error body when that body parses with a nonempty detail, and the
HTTP status text when the body cannot be parsed as JSON at all. -/
theorem analyze_non_ok (st : ClientState) (f : JsFile) (res : HttpResponse)
    (hfile : st.file = some f) (hok : res.ok = false) :
    (analyze st res).state = AppState.error ∧
    (analyze st res).state ≠ AppState.done ∧
    (analyze st res).result = none ∧
    (∀ d, res.errDetail = some (some d) → d ≠ "" →
      (analyze st res).error = d) ∧
    (res.errDetail = none → res.statusText ≠ "" →
      (analyze st res).error = res.statusText) := by
  have hres : analyze st res =
      { startAnalyzing st with
        error := analyzeErrorMessage res
        state := AppState.error } := by
    unfold analyze
    rw [hfile]
    unfold processResponse
    rw [if_pos hok]
  refine ⟨by rw [hres], by rw [hres]; simp, by rw [hres]; rfl, ?_, ?_⟩
  · intro d hd hne
    rw [hres]
    show analyzeErrorMessage res = d
    unfold analyzeErrorMessage
    rw [hd]
    simp [jsOrElse, hne]
  · intro hd hne
    rw [hres]
    show analyzeErrorMessage res = res.statusText
    unfold analyzeErrorMessage
    rw [hd]
    simp [jsOrElse, hne]

/-- Witness for C2: a 400 response with a detail body, and a 502 response with
an unparseable body, both observed from a state with a selected file. -/
theorem analyze_non_ok_witness :
    (analyze
        ⟨AppState.selected, some ⟨"a.mp4", 5⟩, none, "", 0⟩
        ⟨false, 400, "Bad Request", some (some "Video is longer than 5 minutes"),
          none, ""⟩).state = AppState.error ∧
    (analyze
        ⟨AppState.selected, some ⟨"a.mp4", 5⟩, none, "", 0⟩
        ⟨false, 400, "Bad Request", some (some "Video is longer than 5 minutes"),
          none, ""⟩).error = "Video is longer than 5 minutes" ∧
    (analyze
        ⟨AppState.selected, some ⟨"a.mp4", 5⟩, none, "", 0⟩
        ⟨false, 502, "Bad Gateway", none, none, ""⟩).error = "Bad Gateway" := by
  have h1 :=
    analyze_non_ok ⟨AppState.selected, some ⟨"a.mp4", 5⟩, none, "", 0⟩
      ⟨"a.mp4", 5⟩
      ⟨false, 400, "Bad Request", some (some "Video is longer than 5 minutes"),
        none, ""⟩ rfl rfl
  have h2 :=
    analyze_non_ok ⟨AppState.selected, some ⟨"a.mp4", 5⟩, none, "", 0⟩
      ⟨"a.mp4", 5⟩
      ⟨false, 502, "Bad Gateway", none, none, ""⟩ rfl rfl
  exact ⟨h1.1, h1.2.2.2.1 "Video is longer than 5 minutes" rfl (by decide),
    h2.2.2.2.2 rfl (by decide)⟩

/-- C6: a 200 response whose body is the object with an empty failures array is
success, not an error — the client reaches the done state, the results count
badge reads zero failures, and the no-failures notice is rendered. -/
theorem analyze_empty_success (st : ClientState) (f : JsFile) (res : HttpResponse)
    (hfile : st.file = some f) (hok : res.ok = true)
    (hbody : res.okJson = some ⟨[]⟩) :
    (analyze st res).state = AppState.done ∧
    (analyze st res).state ≠ AppState.error ∧
    (analyze st res).result = some ⟨[]⟩ ∧
    resultsCountText ⟨[]⟩ = "0 failures detected" ∧
    showsNoFailuresNotice (analyze st res) = true := by
  have hres : analyze st res =
      { startAnalyzing st with
        result := some ⟨[]⟩
        state := AppState.done } := by
    unfold analyze
    rw [hfile]
    unfold processResponse
    rw [hok]
    simp only [Bool.true_eq_false, if_false, hbody]
  refine ⟨by rw [hres], by rw [hres]; simp, by rw [hres], by decide, ?_⟩
  rw [hres]
  rfl

/-- Witness for C6: an ok response carrying the empty failures object. -/
theorem analyze_empty_success_witness :
    (analyze
        ⟨AppState.selected, some ⟨"a.mp4", 5⟩, none, "", 0⟩
        ⟨true, 200, "OK", none, some ⟨[]⟩, ""⟩).state = AppState.done ∧
    (analyze
        ⟨AppState.selected, some ⟨"a.mp4", 5⟩, none, "", 0⟩
        ⟨true, 200, "OK", none, some ⟨[]⟩, ""⟩).result = some ⟨[]⟩ ∧
    resultsCountText ⟨[]⟩ = "0 failures detected" ∧
    showsNoFailuresNotice
      (analyze ⟨AppState.selected, some ⟨"a.mp4", 5⟩, none, "", 0⟩
        ⟨true, 200, "OK", none, some ⟨[]⟩, ""⟩) = true := by
  have h :=
    analyze_empty_success ⟨AppState.selected, some ⟨"a.mp4", 5⟩, none, "", 0⟩
      ⟨"a.mp4", 5⟩ ⟨true, 200, "OK", none, some ⟨[]⟩, ""⟩ rfl rfl rfl
  exact ⟨h.1, h.2.2.1, h.2.2.2.1, h.2.2.2.2⟩

/-- C7: for every success response, the failure at each position is rendered as
the card at the same position, and that card shows the six schema fields — the
timestamp through `formatTimestamp`, the confidence as the rounded percentage
`⌊confidence * 100 + 1/2⌋` with a percent label, and the title, expected,
actual and evidence strings verbatim. -/
theorem renderedCards_fields (r : AnalyzeResponse) (i : Nat) (f : FailureEvent)
    (hf : r.failures[i]? = some f) :
    (renderedCards r)[i]? = some (renderFailureCard f) ∧
    (renderFailureCard f).timestampText = formatTimestamp f.timestamp_seconds ∧
    (renderFailureCard f).confidenceText =
      toString ⌊f.confidence * 100 + 1 / 2⌋ ++ "% confidence" ∧
    (renderFailureCard f).title = f.title ∧
    (renderFailureCard f).expected = f.expected ∧
    (renderFailureCard f).actual = f.actual ∧
    (renderFailureCard f).evidence = f.evidence := by
  refine ⟨?_, rfl, rfl, rfl, rfl, rfl, rfl⟩
  unfold renderedCards
  rw [List.getElem?_map, hf]
  rfl

/-- Witness for C7: a one-event response rendered with an 85 percent badge and
a 0:12 timestamp. -/
theorem renderedCards_fields_witness :
    (renderedCards ⟨[⟨12.5, "Submit does nothing", "Form saves",
        "Nothing happens", "Narrator reports the bug", 0.85⟩]⟩)[0]? =
      some (renderFailureCard ⟨12.5, "Submit does nothing", "Form saves",
        "Nothing happens", "Narrator reports the bug", 0.85⟩) ∧
    (renderFailureCard ⟨12.5, "Submit does nothing", "Form saves",
        "Nothing happens", "Narrator reports the bug", 0.85⟩).confidenceText =
      "85% confidence" ∧
    (renderFailureCard ⟨12.5, "Submit does nothing", "Form saves",
        "Nothing happens", "Narrator reports the bug", 0.85⟩).timestampText =
      formatTimestamp 12.5 := by
  have h :=
    renderedCards_fields
      ⟨[⟨12.5, "Submit does nothing", "Form saves", "Nothing happens",
        "Narrator reports the bug", 0.85⟩]⟩ 0
      ⟨12.5, "Submit does nothing", "Form saves", "Nothing happens",
        "Narrator reports the bug", 0.85⟩ rfl
  refine ⟨h.1, ?_, h.2.1.symm ▸ rfl⟩
  rw [h.2.2.1]
  have hfl : ⌊(0.85 : ℚ) * 100 + 1 / 2⌋ = 85 := by
    rw [Int.floor_eq_iff]; norm_num
  rw [hfl]
  decide

/-- C3: a context window whose extraction output is invalid on both attempts
(including transport failures, treated alike) makes exactly two backend calls
— one initial and one repair — contributes zero failure events, and the
extraction stage still reports success to the caller of the pipeline. -/
theorem extractWindow_two_attempts
    (backend : ContextWindow → Option String → Option String)
    (validate : String → Option (List FailureEvent)) (w : ContextWindow)
    (hbad : ∀ fb, (backend w fb).bind validate = none) :
    extractWindow backend validate w = ([], 2) ∧
    extractAll backend validate [w] = ([], 2) ∧
    pipelineExtractResult backend validate [w] = Except.ok [] ∧
    (∀ ws, (pipelineExtractResult backend validate ws).isOk = true) := by
  have hatt : ∀ fb, ∃ e, attemptExtract backend validate w fb = Except.error e := by
    intro fb
    have hb := hbad fb
    unfold attemptExtract
    cases hcall : backend w fb with
    | none => exact ⟨_, rfl⟩
    | some raw =>
      rw [hcall] at hb
      have hb' : validate raw = none := hb
      refine ⟨"invalid extraction output: " ++ raw, ?_⟩
      show (match validate raw with
        | some evs => Except.ok evs
        | none => Except.error ("invalid extraction output: " ++ raw)) =
        Except.error ("invalid extraction output: " ++ raw)
      rw [hb']
  obtain ⟨e1, h1⟩ := hatt none
  obtain ⟨e2, h2⟩ := hatt (some e1)
  have hw : extractWindow backend validate w = ([], 2) := by
    unfold extractWindow
    rw [h1]
    show (match attemptExtract backend validate w (some e1) with
      | Except.ok evs => (evs, 2)
      | Except.error _ => ([], 2)) = ([], 2)
    rw [h2]
  have hall : extractAll backend validate [w] = ([], 2) := by
    unfold extractAll
    simp only [List.foldl_cons, List.foldl_nil, hw]
    simp
  refine ⟨hw, hall, ?_, fun ws => rfl⟩
  unfold pipelineExtractResult
  rw [hall]

/-- Witness for C3: a backend that always answers non-JSON text under a
validator rejecting everything. -/
theorem extractWindow_two_attempts_witness :
    extractWindow (fun _ _ => some "not json") (fun _ => none) ⟨[], 0⟩
      = ([], 2) ∧
    pipelineExtractResult (fun _ _ => some "not json") (fun _ => none)
      [⟨[], 0⟩] = Except.ok [] := by
  have h :=
    extractWindow_two_attempts (fun _ _ => some "not json") (fun _ => none)
      ⟨[], 0⟩ (fun _ => rfl)
  exact ⟨h.1, h.2.2.1⟩

/-- C4: two candidates are duplicates exactly when their timestamps differ by
at most 30 seconds and their titles pass the similarity test; a duplicate pair
keeps exactly the higher-confidence candidate, a confidence tie keeping the
earlier-produced one; and the merge is greedy, folding each new candidate
against the already-accepted list in processing order. -/
theorem dedup_merge_policy (similar : String → String → Bool)
    (a c : FailureEvent) (cands : List FailureEvent) :
    (isDuplicate similar a c = true ↔
      |a.timestamp_seconds - c.timestamp_seconds| ≤ 30 ∧
        similar a.title c.title = true) ∧
    (isDuplicate similar a c = true →
      dedupInsert similar [a] c =
        if a.confidence < c.confidence then [c] else [a]) ∧
    (isDuplicate similar a c = false → dedupInsert similar [a] c = [a, c]) ∧
    dedup similar cands = cands.foldl (dedupInsert similar) [] := by
  refine ⟨?_, fun hdup => ?_, fun hnot => ?_, rfl⟩
  · unfold isDuplicate
    simp [Bool.and_eq_true, decide_eq_true_eq]
  · unfold dedupInsert
    rw [List.findIdx?_cons, hdup]
    simp only [if_true]
    show (if c.confidence > (List.getD [a] 0 c).confidence
      then List.set [a] 0 c else [a]) =
      if a.confidence < c.confidence then [c] else [a]
    simp [List.getD, gt_iff_lt]
  · unfold dedupInsert
    rw [List.findIdx?_cons, hnot]
    simp [List.findIdx?_nil]

/-- Witness for C4: the duplicate-collapse and non-duplicate-preservation
examples of the spec under a similarity test equating the two submit titles. -/
theorem dedup_merge_policy_witness :
    isDuplicate
      (fun s t => s == t
        || (s == "Submit button does nothing" && t == "Clicking submit has no effect"))
      ⟨10.0, "Submit button does nothing", "e", "a", "v", 0.6⟩
      ⟨12.0, "Clicking submit has no effect", "e", "a", "v", 0.9⟩ = true ∧
    dedupInsert
      (fun s t => s == t
        || (s == "Submit button does nothing" && t == "Clicking submit has no effect"))
      [⟨10.0, "Submit button does nothing", "e", "a", "v", 0.6⟩]
      ⟨12.0, "Clicking submit has no effect", "e", "a", "v", 0.9⟩ =
      [⟨12.0, "Clicking submit has no effect", "e", "a", "v", 0.9⟩] ∧
    isDuplicate (fun s t => s == t)
      ⟨10.0, "Submit fails", "e", "a", "v", 0.6⟩
      ⟨50.0, "Export crashes", "e", "a", "v", 0.9⟩ = false ∧
    dedupInsert (fun s t => s == t)
      [⟨10.0, "Submit fails", "e", "a", "v", 0.6⟩]
      ⟨50.0, "Export crashes", "e", "a", "v", 0.9⟩ =
      [⟨10.0, "Submit fails", "e", "a", "v", 0.6⟩,
        ⟨50.0, "Export crashes", "e", "a", "v", 0.9⟩] := by
  have hdup : isDuplicate
      (fun s t => s == t
        || (s == "Submit button does nothing" && t == "Clicking submit has no effect"))
      ⟨10.0, "Submit button does nothing", "e", "a", "v", 0.6⟩
      ⟨12.0, "Clicking submit has no effect", "e", "a", "v", 0.9⟩ = true := by
    unfold isDuplicate
    norm_num
  have hnot : isDuplicate (fun s t => s == t)
      ⟨10.0, "Submit fails", "e", "a", "v", 0.6⟩
      ⟨50.0, "Export crashes", "e", "a", "v", 0.9⟩ = false := by
    unfold isDuplicate
    norm_num
  have h1 :=
    (dedup_merge_policy
      (fun s t => s == t
        || (s == "Submit button does nothing" && t == "Clicking submit has no effect"))
      ⟨10.0, "Submit button does nothing", "e", "a", "v", 0.6⟩
      ⟨12.0, "Clicking submit has no effect", "e", "a", "v", 0.9⟩ []).2.1 hdup
  have h2 :=
    (dedup_merge_policy (fun s t => s == t)
      ⟨10.0, "Submit fails", "e", "a", "v", 0.6⟩
      ⟨50.0, "Export crashes", "e", "a", "v", 0.9⟩ []).2.2.1 hnot
  refine ⟨hdup, ?_, hnot, h2⟩
  rw [h1, if_pos (by norm_num : (0.6 : ℚ) < 0.9)]

/-- Inserting an event permutes with consing it. -/
lemma insertByTs_perm (c : FailureEvent) (l : List FailureEvent) :
    List.Perm (insertByTs c l) (c :: l) := by
  induction l with
  | nil => exact List.Perm.refl _
  | cons a rest ih =>
    unfold insertByTs
    by_cases h : c.timestamp_seconds < a.timestamp_seconds
    · rw [if_pos h]
    · rw [if_neg h]
      exact (ih.cons a).trans (List.Perm.swap _ _ _)

/-- Membership in an insertion. -/
lemma mem_insertByTs {b c : FailureEvent} {l : List FailureEvent} :
    b ∈ insertByTs c l ↔ b = c ∨ b ∈ l := by
  rw [(insertByTs_perm c l).mem_iff]
  simp

/-- Insertion preserves sortedness by timestamp. -/
lemma insertByTs_pairwise (c : FailureEvent) (l : List FailureEvent)
    (h : List.Pairwise
      (fun a b => a.timestamp_seconds ≤ b.timestamp_seconds) l) :
    List.Pairwise (fun a b => a.timestamp_seconds ≤ b.timestamp_seconds)
      (insertByTs c l) := by
  induction l with
  | nil => simp [insertByTs]
  | cons a rest ih =>
    rw [List.pairwise_cons] at h
    obtain ⟨ha, hrest⟩ := h
    unfold insertByTs
    by_cases hlt : c.timestamp_seconds < a.timestamp_seconds
    · rw [if_pos hlt]
      refine List.Pairwise.cons ?_ (List.Pairwise.cons ha hrest)
      intro b hb
      rcases List.mem_cons.mp hb with rfl | hb
      · exact le_of_lt hlt
      · exact le_trans (le_of_lt hlt) (ha b hb)
    · rw [if_neg hlt]
      refine List.Pairwise.cons ?_ (ih hrest)
      intro b hb
      rcases mem_insertByTs.mp hb with rfl | hb
      · exact le_of_not_lt hlt
      · exact ha b hb

/-- The insertion fold is sorted whenever the accumulator is. -/
lemma foldl_insertByTs_pairwise (l : List FailureEvent) (acc : List FailureEvent)
    (hacc : List.Pairwise
      (fun a b => a.timestamp_seconds ≤ b.timestamp_seconds) acc) :
    List.Pairwise (fun a b => a.timestamp_seconds ≤ b.timestamp_seconds)
      (l.foldl (fun acc c => insertByTs c acc) acc) := by
  induction l generalizing acc with
  | nil => simpa using hacc
  | cons c rest ih =>
    rw [List.foldl_cons]
    exact ih _ (insertByTs_pairwise c acc hacc)

/-- The insertion fold permutes with appending. -/
lemma foldl_insertByTs_perm (l : List FailureEvent) (acc : List FailureEvent) :
    List.Perm (l.foldl (fun acc c => insertByTs c acc) acc) (acc ++ l) := by
  induction l generalizing acc with
  | nil => simp
  | cons c rest ih =>
    rw [List.foldl_cons]
    refine (ih _).trans ?_
    refine (List.Perm.append_right rest (insertByTs_perm c acc)).trans ?_
    exact List.perm_middle.symm

/-- Filtering an insertion at one timestamp appends the inserted event exactly
when it carries that timestamp, provided the list was sorted. -/
lemma filter_ts_insertByTs (t : ℚ) (c : FailureEvent) (l : List FailureEvent)
    (hl : List.Pairwise
      (fun a b => a.timestamp_seconds ≤ b.timestamp_seconds) l) :
    (insertByTs c l).filter (fun e => decide (e.timestamp_seconds = t)) =
      l.filter (fun e => decide (e.timestamp_seconds = t))
        ++ (if c.timestamp_seconds = t then [c] else []) := by
  induction l with
  | nil =>
    by_cases hc : c.timestamp_seconds = t
    · simp [insertByTs, List.filter, hc]
    · simp [insertByTs, List.filter, hc]
  | cons a rest ih =>
    rw [List.pairwise_cons] at hl
    obtain ⟨ha, hrest⟩ := hl
    unfold insertByTs
    by_cases hlt : c.timestamp_seconds < a.timestamp_seconds
    · rw [if_pos hlt]
      by_cases hc : c.timestamp_seconds = t
      · have hnone : (a :: rest).filter
            (fun e => decide (e.timestamp_seconds = t)) = [] := by
          rw [List.filter_eq_nil_iff]
          intro b hb
          have hab : a.timestamp_seconds ≤ b.timestamp_seconds := by
            rcases List.mem_cons.mp hb with rfl | hb
            · exact le_refl _
            · exact ha b hb
          have : t < b.timestamp_seconds := lt_of_lt_of_le (hc ▸ hlt) hab
          simp only [decide_eq_true_eq]
          exact fun hbt => absurd (hbt ▸ this) (lt_irrefl t)
        rw [List.filter_cons, hnone]
        simp [hc]
      · rw [List.filter_cons]
        simp [hc]
    · rw [if_neg hlt]
      rw [List.filter_cons, List.filter_cons, ih hrest]
      by_cases hpa : a.timestamp_seconds = t
      · simp [hpa]
      · simp [hpa]

/-- Filtering the insertion fold at one timestamp splits over accumulator and
input, provided the accumulator is sorted. -/
lemma filter_ts_foldl (t : ℚ) (l : List FailureEvent) (acc : List FailureEvent)
    (hacc : List.Pairwise
      (fun a b => a.timestamp_seconds ≤ b.timestamp_seconds) acc) :
    (l.foldl (fun acc c => insertByTs c acc) acc).filter
        (fun e => decide (e.timestamp_seconds = t)) =
      acc.filter (fun e => decide (e.timestamp_seconds = t))
        ++ l.filter (fun e => decide (e.timestamp_seconds = t)) := by
  induction l generalizing acc with
  | nil => simp
  | cons c rest ih =>
    rw [List.foldl_cons, ih _ (insertByTs_pairwise c acc hacc),
      filter_ts_insertByTs t c acc hacc, List.filter_cons]
    by_cases hc : c.timestamp_seconds = t
    · simp [hc]
    · simp [hc]

/-- C5: the final output is sorted ascending by `timestamp_seconds`, it is a
permutation of the merged input, the sort is stable — the events carrying any
fixed timestamp appear in their original relative order, expressed as filter
preservation — and the merged timestamps [42.3, 5.1, 18.0] of the spec example
come out as [5.1, 18.0, 42.3]. -/
theorem sortFailures_sorted_stable (l : List FailureEvent) :
    List.Pairwise (fun a b => a.timestamp_seconds ≤ b.timestamp_seconds)
      (sortFailures l) ∧
    List.Perm (sortFailures l) l ∧
    (∀ t : ℚ, (sortFailures l).filter (fun e => decide (e.timestamp_seconds = t)) =
      l.filter (fun e => decide (e.timestamp_seconds = t))) ∧
    (sortFailures exampleMerged).map (fun e => e.timestamp_seconds) =
      [5.1, 18.0, 42.3] := by
  refine ⟨foldl_insertByTs_pairwise l [] (by simp),
    by simpa using foldl_insertByTs_perm l [], fun t => ?_, ?_⟩
  · have h := filter_ts_foldl t l [] (by simp)
    simpa using h
  · norm_num [sortFailures, exampleMerged, List.foldl_cons, List.foldl_nil,
      insertByTs]
